import Mathlib

/-!
Verification of the VGG model module (timm/models/vgg.py): the variant
configuration table, the feature-stage builder loop, the convolutional
classifier head (ConvMlp), the checkpoint key remapper (_filter_fn) and
classifier reset.
-/

namespace VggModel

/-! ### Checkpoint tensors

A checkpoint tensor is modelled by its shape together with an abstract
payload identifier; reshaping preserves the payload and the element count. -/

structure Tensor where
  shape : List Nat
  data : Nat
  deriving DecidableEq

def Tensor.numel (t : Tensor) : Nat := t.shape.foldl (fun a b => a * b) 1

/-- torch reshape(-1, d1, ..., dk): the leading dimension is inferred from
the element count; fails when the count is not divisible. -/
def reshapeNeg1 (t : Tensor) (dims : List Nat) : Option Tensor :=
  let p := dims.foldl (fun a b => a * b) 1
  if 0 < p ∧ t.numel % p = 0 then some { shape := t.numel / p :: dims, data := t.data } else none

/-! ### Python string operations on character lists -/

/-- Leading-match test on character lists. -/
def isPre : List Char → List Char → Bool
  | [], _ => true
  | _ :: _, [] => false
  | a :: as, b :: bs => a == b && isPre as bs

/-- Python substring containment test (pat in s). -/
def hasOccur (pat : List Char) : List Char → Bool
  | [] => isPre pat []
  | c :: s => isPre pat (c :: s) || hasOccur pat s

/-- Fuel-indexed scan of Python str.replace: replace each leftmost
occurrence and resume after it. The fuel is at least the length of the
string wherever replaceStr uses it, so it never runs out. -/
def replaceGo (p : Char) (ps repl : List Char) : Nat → List Char → List Char
  | _, [] => []
  | 0, s => s
  | fuel + 1, c :: s =>
    if isPre (p :: ps) (c :: s) then repl ++ replaceGo p ps repl fuel (List.drop ps.length s)
    else c :: replaceGo p ps repl fuel s

/-- Python str.replace(pat, repl) for the nonempty patterns used here. -/
def replaceStr (pat repl s : List Char) : List Char :=
  match pat with
  | [] => s
  | p :: ps => replaceGo p ps repl s.length s

/-! ### The checkpoint remapper _filter_fn -/

def legacy0 : List Char := "classifier.0".toList
def legacy3 : List Char := "classifier.3".toList
def legacy6 : List Char := "classifier.6".toList
def legacy0w : List Char := "classifier.0.weight".toList
def legacy3w : List Char := "classifier.3.weight".toList
def repl0 : List Char := "pre_logits.fc1".toList
def repl3 : List Char := "pre_logits.fc2".toList
def repl6 : List Char := "head.fc".toList

/-- Loop body of _filter_fn for one (key, value) entry: three sequential
substring renames of the key, then reshapes gated on the original key. -/
def remapEntry (k : List Char) (v : Tensor) : Option (List Char × Tensor) :=
  let kr := replaceStr legacy6 repl6 (replaceStr legacy3 repl3 (replaceStr legacy0 repl0 k))
  let v1 : Option Tensor := if hasOccur legacy0w k then reshapeNeg1 v [512, 7, 7] else some v
  let v2 : Option Tensor :=
    v1.bind fun t => if hasOccur legacy3w k then reshapeNeg1 t [4096, 1, 1] else some t
  v2.map fun t => (kr, t)

/-- Python dict assignment out[k] = v on an insertion-ordered association
list: update in place when the key is present, else append. -/
def dictInsert (m : List (List Char × Tensor)) (k : List Char) (v : Tensor) :
    List (List Char × Tensor) :=
  if k ∈ m.map Prod.fst then m.map (fun kv => if kv.1 = k then (k, v) else kv) else m ++ [(k, v)]

/-- The function _filter_fn: remap every entry of the state dict in
iteration order, building the output dict. A reshape failure propagates
as none. -/
def filter_fn (sd : List (List Char × Tensor)) : Option (List (List Char × Tensor)) :=
  sd.foldlM (fun acc kv => (remapEntry kv.1 kv.2).map fun r => dictInsert acc r.1 r.2) []

/-! ### Variant configuration table (cfgs) -/

/-- A configuration entry: a channel width, or the downsampling marker M. -/
inductive CfgEntry
  | M : CfgEntry
  | C : Nat → CfgEntry
  deriving DecidableEq

open CfgEntry in
def cfgs_vgg11 : List CfgEntry :=
  [C 64, M, C 128, M, C 256, C 256, M, C 512, C 512, M, C 512, C 512, M]

open CfgEntry in
def cfgs_vgg13 : List CfgEntry :=
  [C 64, C 64, M, C 128, C 128, M, C 256, C 256, M, C 512, C 512, M, C 512, C 512, M]

open CfgEntry in
def cfgs_vgg16 : List CfgEntry :=
  [C 64, C 64, M, C 128, C 128, M, C 256, C 256, C 256, M, C 512, C 512, C 512, M,
    C 512, C 512, C 512, M]

open CfgEntry in
def cfgs_vgg19 : List CfgEntry :=
  [C 64, C 64, M, C 128, C 128, M, C 256, C 256, C 256, C 256, M, C 512, C 512, C 512, C 512, M,
    C 512, C 512, C 512, C 512, M]

/-! ### Stage builder (the layer loop of VGG.__init__) -/

/-- A module appended to the features list. Convolutions record the source
call conv_layer(prev_chs, v, kernel_size=3, padding=1); pooling records
pool_layer(kernel_size=2, stride=2). -/
inductive LayerModule
  | maxPool2d (kernelSize stride : Nat)
  | conv2d (inChs outChs kernelSize padding : Nat)
  | norm (chs : Nat)
  | act
  deriving DecidableEq

/-- One feature_info record: dict(num_chs=..., reduction=..., module=...). -/
structure StageInfo where
  num_chs : Nat
  reduction : Nat
  module : String
  deriving DecidableEq

def featureName (lastIdx : Int) : String := "features." ++ toString lastIdx

/-- The loop state of VGG.__init__: prev_chs, net_stride, the layers built
so far and the feature_info records so far. -/
structure BuildState where
  prev_chs : Nat
  net_stride : Nat
  layers : List LayerModule
  feature_info : List StageInfo
  deriving DecidableEq

/-- One iteration of the configuration loop in VGG.__init__. -/
def buildStep (useNorm : Bool) (st : BuildState) (v : CfgEntry) : BuildState :=
  let lastIdx : Int := (st.layers.length : Int) - 1
  match v with
  | CfgEntry.M =>
    { prev_chs := st.prev_chs
      net_stride := st.net_stride * 2
      layers := st.layers ++ [LayerModule.maxPool2d 2 2]
      feature_info := st.feature_info ++ [⟨st.prev_chs, st.net_stride, featureName lastIdx⟩] }
  | CfgEntry.C w =>
    { prev_chs := w
      net_stride := st.net_stride
      layers := st.layers ++
        (if useNorm then
          [LayerModule.conv2d st.prev_chs w 3 1, LayerModule.norm w, LayerModule.act]
        else [LayerModule.conv2d st.prev_chs w 3 1, LayerModule.act])
      feature_info := st.feature_info }

/-- The whole configuration loop plus the final feature_info append. -/
def buildFeatures (cfg : List CfgEntry) (in_chans : Nat) (useNorm : Bool) : BuildState :=
  let st := cfg.foldl (buildStep useNorm) ⟨in_chans, 1, [], []⟩
  { st with
    feature_info :=
      st.feature_info ++ [⟨st.prev_chs, st.net_stride, featureName ((st.layers.length : Int) - 1)⟩] }

/-! ### ConvMlp (the classification head adapter) -/

/-- Parameters of one conv_layer(in, out, kernel_size, bias) call. Channel
counts are integers because mid_features = int(out_features * mlp_ratio)
is a (possibly negative) Python int. -/
structure Conv2dSpec where
  in_channels : Int
  out_channels : Int
  kernel_size : Nat
  bias : Bool
  deriving DecidableEq

/-- Python int(): truncation toward zero of a rational. -/
def pyInt (q : ℚ) : Int := if 0 ≤ q then ⌊q⌋ else ⌈q⌉

structure ConvMlp where
  input_kernel_size : Nat
  mid_features : Int
  fc1 : Conv2dSpec
  drop_rate : ℚ
  fc2 : Conv2dSpec
  deriving DecidableEq

/-- ConvMlp.__init__. -/
def ConvMlp.init (in_features out_features kernel_size : Nat) (mlp_ratio drop_rate : ℚ) :
    ConvMlp :=
  let mid_features := pyInt ((out_features : ℚ) * mlp_ratio)
  { input_kernel_size := kernel_size
    mid_features := mid_features
    fc1 := ⟨(in_features : Int), mid_features, kernel_size, true⟩
    drop_rate := drop_rate
    fc2 := ⟨mid_features, (out_features : Int), 1, true⟩ }

/-! ### Shape semantics of ConvMlp.forward -/

structure Shape4 where
  n : Nat
  c : Nat
  h : Nat
  w : Nat
  deriving DecidableEq

/-- Shape semantics of F.adaptive_avg_pool2d: any requested output size,
defined on inputs with nonempty spatial extent. -/
def adaptive_avg_pool2d (s : Shape4) (oh ow : Nat) : Option Shape4 :=
  if 0 < s.h ∧ 0 < s.w then some { s with h := oh, w := ow } else none

/-- Shape semantics of a stride-1 convolution with the given padding:
requires matching input channels and an input at least as large as the
kernel; output spatial extent is input + 2 * padding - kernel + 1. -/
def conv2dShape (cv : Conv2dSpec) (padding : Nat) (s : Shape4) : Option Shape4 :=
  if cv.in_channels = (s.c : Int) ∧ cv.kernel_size ≤ s.h + 2 * padding ∧
      cv.kernel_size ≤ s.w + 2 * padding then
    some { n := s.n, c := cv.out_channels.toNat,
           h := s.h + 2 * padding - cv.kernel_size + 1,
           w := s.w + 2 * padding - cv.kernel_size + 1 }
  else none

/-- Shape semantics of ConvMlp.forward: the small-input adaptive resize
branch, then fc1 and fc2 (activations and dropout preserve the shape). -/
def ConvMlp.forwardShape (m : ConvMlp) (x : Shape4) : Option Shape4 :=
  let x0 : Option Shape4 :=
    if x.h < m.input_kernel_size ∨ x.w < m.input_kernel_size then
      adaptive_avg_pool2d x (max m.input_kernel_size x.h) (max m.input_kernel_size x.w)
    else some x
  (x0.bind (conv2dShape m.fc1 0)).bind (conv2dShape m.fc2 0)

/-! ### Classifier head and the VGG model record

The ClassifierHead class lives in timm.layers, outside this module's
source file; its construction and reset are modelled from the spec. -/

/-- Modelled from the spec: the final projection of the classifier head is
a linear layer, or the identity in feature-only mode. -/
inductive HeadFc
  | identity
  | linear (in_features : Nat) (out_features : Int)
  deriving DecidableEq

/-- Modelled from the spec: ClassifierHead pools, applies dropout, then the
final projection; num_classes <= 0 selects the identity projection
(feature-only mode) instead of raising. -/
structure ClassifierHead where
  in_features : Nat
  pool_type : String
  drop_rate : ℚ
  fc : HeadFc
  deriving DecidableEq

/-- Modelled from the spec: ClassifierHead construction. -/
def ClassifierHead.init (in_features : Nat) (num_classes : Int) (pool_type : String)
    (drop_rate : ℚ) : ClassifierHead :=
  { in_features := in_features
    pool_type := pool_type
    drop_rate := drop_rate
    fc := if num_classes ≤ 0 then HeadFc.identity else HeadFc.linear in_features num_classes }

/-- Modelled from the spec: ClassifierHead.reset replaces the final
projection (identity when num_classes <= 0) and, when given, the pooling
kind, leaving the rest of the head unchanged. -/
def ClassifierHead.reset (h : ClassifierHead) (num_classes : Int) (global_pool : Option String) :
    ClassifierHead :=
  { in_features := h.in_features
    pool_type := global_pool.getD h.pool_type
    drop_rate := h.drop_rate
    fc := if num_classes ≤ 0 then HeadFc.identity else HeadFc.linear h.in_features num_classes }

/-- The VGG module's fields after __init__. -/
structure VGG where
  num_classes : Int
  drop_rate : ℚ
  grad_checkpointing : Bool
  use_norm : Bool
  feature_info : List StageInfo
  features : List LayerModule
  num_features : Nat
  head_hidden_size : Nat
  pre_logits : ConvMlp
  head : ClassifierHead
  deriving DecidableEq

/-- VGG.__init__: the output_stride assertion guards everything; on
success the feature stack, the ConvMlp head adapter and the classifier
head are built. -/
def VGG.init (cfg : List CfgEntry) (num_classes : Int) (in_chans : Nat) (output_stride : Nat)
    (mlp_ratio : ℚ) (useNorm : Bool) (global_pool : String) (drop_rate : ℚ) : Option VGG :=
  if output_stride = 32 then
    let st := buildFeatures cfg in_chans useNorm
    some
      { num_classes := num_classes
        drop_rate := drop_rate
        grad_checkpointing := false
        use_norm := useNorm
        feature_info := st.feature_info
        features := st.layers
        num_features := st.prev_chs
        head_hidden_size := 4096
        pre_logits := ConvMlp.init st.prev_chs 4096 7 mlp_ratio drop_rate
        head := ClassifierHead.init 4096 num_classes global_pool drop_rate }
  else none

/-- VGG.reset_classifier: stores the new num_classes and resets the head. -/
def VGG.reset_classifier (m : VGG) (num_classes : Int) (global_pool : Option String) : VGG :=
  { m with
    num_classes := num_classes
    head := ClassifierHead.reset m.head num_classes global_pool }

def isPoolLayer : LayerModule → Bool
  | LayerModule.maxPool2d _ _ => true
  | _ => false

def isConvLayer : LayerModule → Bool
  | LayerModule.conv2d _ _ _ _ => true
  | _ => false

def isNormLayer : LayerModule → Bool
  | LayerModule.norm _ => true
  | _ => false

def isActLayer : LayerModule → Bool
  | LayerModule.act => true
  | _ => false

/-- Keys of a state dict, in insertion order. -/
def keys (m : List (List Char × Tensor)) : List (List Char) := m.map Prod.fst

/-- A key containing none of the three legacy substrings. -/
def noLegacy (k : List Char) : Prop :=
  hasOccur legacy0 k = false ∧ hasOccur legacy3 k = false ∧ hasOccur legacy6 k = false

instance (k : List Char) : Decidable (noLegacy k) := by
  unfold noLegacy; infer_instance

/-- A small concrete model used to instantiate universally quantified
theorems at a closed input. -/
def sampleVGG : VGG :=
  { num_classes := 1000
    drop_rate := 0
    grad_checkpointing := false
    use_norm := false
    feature_info := []
    features := []
    num_features := 4
    head_hidden_size := 4096
    pre_logits := ConvMlp.init 4 4096 7 1 0
    head := ClassifierHead.init 4096 1000 "avg" 0 }

/-! ### Helper lemmas on the string scanner -/

theorem isPre_of_append (pat q : List Char) :
    ∀ s : List Char, isPre (pat ++ q) s = true → isPre pat s = true := by
  induction pat with
  | nil => intro s _; rfl
  | cons a as ih =>
    intro s h
    cases s with
    | nil => simp [isPre] at h
    | cons b bs =>
      simp only [List.cons_append, isPre, Bool.and_eq_true] at h ⊢
      exact ⟨h.1, ih bs h.2⟩

theorem hasOccur_append_false (pat q : List Char) :
    ∀ s : List Char, hasOccur pat s = false → hasOccur (pat ++ q) s = false := by
  intro s
  induction s with
  | nil =>
    intro h
    cases pat with
    | nil => simp [hasOccur, isPre] at h
    | cons a as => rfl
  | cons c s ih =>
    intro h
    simp only [hasOccur, Bool.or_eq_false_iff] at h ⊢
    refine ⟨?_, ih h.2⟩
    cases hp : isPre (pat ++ q) (c :: s) with
    | false => rfl
    | true => rw [isPre_of_append pat q _ hp] at h; exact absurd h.1 (by simp)

theorem replaceGo_no_occur (p : Char) (ps repl : List Char) :
    ∀ (fuel : Nat) (s : List Char), hasOccur (p :: ps) s = false →
      replaceGo p ps repl fuel s = s := by
  intro fuel
  induction fuel with
  | zero => intro s _; cases s <;> rfl
  | succ f ih =>
    intro s h
    cases s with
    | nil => rfl
    | cons c s' =>
      simp only [hasOccur, Bool.or_eq_false_iff] at h
      simp only [replaceGo, h.1, Bool.false_eq_true, if_false]
      rw [ih s' h.2]

theorem replaceStr_no_occur (pat repl s : List Char) (h : hasOccur pat s = false) :
    replaceStr pat repl s = s := by
  cases pat with
  | nil => rfl
  | cons p ps => exact replaceGo_no_occur p ps repl s.length s h

theorem legacy0w_eq : legacy0w = legacy0 ++ ".weight".toList := by decide

theorem legacy3w_eq : legacy3w = legacy3 ++ ".weight".toList := by decide

/-- An entry whose key holds none of the legacy substrings passes through
the remapper loop body untouched. -/
theorem remapEntry_clean (k : List Char) (v : Tensor) (h : noLegacy k) :
    remapEntry k v = some (k, v) := by
  obtain ⟨h0, h3, h6⟩ := h
  have h0w : hasOccur legacy0w k = false := by
    rw [legacy0w_eq]; exact hasOccur_append_false _ _ _ h0
  have h3w : hasOccur legacy3w k = false := by
    rw [legacy3w_eq]; exact hasOccur_append_false _ _ _ h3
  simp [remapEntry, replaceStr_no_occur _ _ _ h0, replaceStr_no_occur _ _ _ h3,
    replaceStr_no_occur _ _ _ h6, h0w, h3w]

/-! ### Helper lemmas on dict building -/

theorem keys_dictInsert (m : List (List Char × Tensor)) (k : List Char) (v : Tensor) :
    keys (dictInsert m k v) = if k ∈ keys m then keys m else keys m ++ [k] := by
  by_cases h : k ∈ keys m
  · simp only [dictInsert, keys] at h ⊢
    rw [if_pos h, if_pos h, List.map_map]
    refine List.map_congr_left ?_
    intro kv _
    by_cases hk : kv.1 = k
    · simp [Function.comp, hk]
    · simp [Function.comp, hk]
  · simp only [dictInsert, keys] at h ⊢
    rw [if_neg h, if_neg h, List.map_append]
    rfl

theorem keys_nodup_dictInsert (m : List (List Char × Tensor)) (k : List Char) (v : Tensor)
    (h : (keys m).Nodup) : (keys (dictInsert m k v)).Nodup := by
  rw [keys_dictInsert]
  by_cases hk : k ∈ keys m
  · rwa [if_pos hk]
  · rw [if_neg hk]
    simp [List.nodup_append, h, hk]

theorem filterFn_go_nodup :
    ∀ (l acc m' : List (List Char × Tensor)), (keys acc).Nodup →
      List.foldlM (fun acc kv => (remapEntry kv.1 kv.2).map fun r => dictInsert acc r.1 r.2)
        acc l = some m' →
      (keys m').Nodup := by
  intro l
  induction l with
  | nil =>
    intro acc m' h hf
    have hacc : acc = m' := Option.some.inj hf
    exact hacc ▸ h
  | cons kv l ih =>
    intro acc m' h hf
    rw [show (List.foldlM (fun acc kv => (remapEntry kv.1 kv.2).map fun r => dictInsert acc r.1 r.2) acc (kv :: l)) = ((remapEntry kv.1 kv.2).map fun r => dictInsert acc r.1 r.2) >>= (fun s => List.foldlM (fun acc kv => (remapEntry kv.1 kv.2).map fun r => dictInsert acc r.1 r.2) s l) from rfl] at hf
    cases hr : remapEntry kv.1 kv.2 with
    | none =>
      rw [hr] at hf
      exact Option.noConfusion hf
    | some r =>
      rw [hr] at hf
      exact ih (dictInsert acc r.1 r.2) m' (keys_nodup_dictInsert acc r.1 r.2 h) hf

theorem filterFn_nodup (m m' : List (List Char × Tensor)) (h : filter_fn m = some m') :
    (keys m').Nodup :=
  filterFn_go_nodup m [] m' (by simp [keys]) h

theorem dictInsert_not_mem (m : List (List Char × Tensor)) (k : List Char) (v : Tensor)
    (h : k ∉ keys m) : dictInsert m k v = m ++ [(k, v)] := by
  simp only [dictInsert, keys] at h ⊢
  rw [if_neg h]

theorem filterFn_go_clean :
    ∀ (l acc : List (List Char × Tensor)),
      (∀ kv ∈ l, remapEntry kv.1 kv.2 = some kv) →
      (keys (acc ++ l)).Nodup →
      List.foldlM (fun acc kv => (remapEntry kv.1 kv.2).map fun r => dictInsert acc r.1 r.2)
        acc l = some (acc ++ l) := by
  intro l
  induction l with
  | nil =>
    intro acc _ _
    rw [List.append_nil]
    rfl
  | cons kv l ih =>
    intro acc hid hnd
    have hkv : remapEntry kv.1 kv.2 = some kv := hid kv (List.mem_cons_self kv l)
    have hnotin : kv.1 ∉ keys acc := by
      have h1 : (keys acc ++ kv.1 :: keys l).Nodup := by
        simpa [keys, List.map_append] using hnd
      have h2 := (List.nodup_append.mp h1).2.2
      intro hmem
      exact h2 hmem (List.mem_cons_self _ _)
    rw [show (List.foldlM (fun acc kv => (remapEntry kv.1 kv.2).map fun r => dictInsert acc r.1 r.2) acc (kv :: l)) = ((remapEntry kv.1 kv.2).map fun r => dictInsert acc r.1 r.2) >>= (fun s => List.foldlM (fun acc kv => (remapEntry kv.1 kv.2).map fun r => dictInsert acc r.1 r.2) s l) from rfl, hkv]
    show List.foldlM _ (dictInsert acc kv.1 kv.2) l = some (acc ++ kv :: l)
    rw [dictInsert_not_mem acc kv.1 kv.2 hnotin]
    have heq : acc ++ [(kv.1, kv.2)] = acc ++ [kv] := by simp
    rw [heq]
    have hstep := ih (acc ++ [kv]) (fun x hx => hid x (List.mem_cons_of_mem kv hx))
      (by rwa [List.append_assoc, List.singleton_append])
    rw [hstep, List.append_assoc, List.singleton_append]

theorem filterFn_clean (m : List (List Char × Tensor)) (hnd : (keys m).Nodup)
    (hcl : ∀ kv ∈ m, noLegacy kv.1) : filter_fn m = some m := by
  have := filterFn_go_clean m [] (fun kv h => remapEntry_clean kv.1 kv.2 (hcl kv h))
    (by simpa using hnd)
  simpa [filter_fn] using this

/-- Helper: every loop iteration only appends to feature_info. -/
theorem feature_info_extend (b : Bool) :
    ∀ (l : List CfgEntry) (st : BuildState), ∃ s,
      (List.foldl (buildStep b) st l).feature_info = st.feature_info ++ s := by
  intro l
  induction l with
  | nil => intro st; exact ⟨[], by simp⟩
  | cons v l ih =>
    intro st
    obtain ⟨s, hs⟩ := ih (buildStep b st v)
    rw [List.foldl_cons, hs]
    cases v with
    | M =>
      exact ⟨⟨st.prev_chs, st.net_stride, featureName ((st.layers.length : Int) - 1)⟩ :: s,
        by simp [buildStep]⟩
    | C w => exact ⟨s, by simp [buildStep]⟩

/-- Helper: reshaping a flat (o, d) tensor with -1 as leading target
dimension recovers o when the trailing target dimensions multiply to d. -/
theorem reshape_mul (o d : Nat) (hd : 0 < d) (dims : List Nat)
    (hp : dims.foldl (fun a b => a * b) 1 = d) (dt : Nat) :
    reshapeNeg1 ⟨[o, d], dt⟩ dims = some ⟨o :: dims, dt⟩ := by
  have hnum : Tensor.numel ⟨[o, d], dt⟩ = o * d := by simp [Tensor.numel]
  simp only [reshapeNeg1, hnum, hp]
  rw [if_pos ⟨hd, Nat.mul_mod_left o d⟩, Nat.mul_div_cancel o hd]

/-- Evaluation of the remapper loop body when the key triggers the first
reshape only. -/
theorem remapEntry_eval0 (k kr : List Char) (v v' : Tensor)
    (h0 : hasOccur legacy0w k = true) (h3 : hasOccur legacy3w k = false)
    (hre : reshapeNeg1 v [512, 7, 7] = some v')
    (hk : replaceStr legacy6 repl6 (replaceStr legacy3 repl3 (replaceStr legacy0 repl0 k)) = kr) :
    remapEntry k v = some (kr, v') := by
  simp only [remapEntry, h0, h3, hre, hk]
  simp

/-- Evaluation of the remapper loop body when the key triggers the second
reshape only. -/
theorem remapEntry_eval3 (k kr : List Char) (v v' : Tensor)
    (h0 : hasOccur legacy0w k = false) (h3 : hasOccur legacy3w k = true)
    (hre : reshapeNeg1 v [4096, 1, 1] = some v')
    (hk : replaceStr legacy6 repl6 (replaceStr legacy3 repl3 (replaceStr legacy0 repl0 k)) = kr) :
    remapEntry k v = some (kr, v') := by
  simp only [remapEntry, h0, h3, hre, hk]
  simp [hre]

/-- Evaluation of the remapper loop body when the key triggers no
reshape. -/
theorem remapEntry_eval6 (k kr : List Char) (v : Tensor)
    (h0 : hasOccur legacy0w k = false) (h3 : hasOccur legacy3w k = false)
    (hk : replaceStr legacy6 repl6 (replaceStr legacy3 repl3 (replaceStr legacy0 repl0 k)) = kr) :
    remapEntry k v = some (kr, v) := by
  simp only [remapEntry, h0, h3, hk]
  simp

/-! ### Claim theorems -/

/-- Claim C1: each of the four variant configurations (vgg11, vgg13,
vgg16, vgg19) makes the stage-builder loop emit exactly 5 downsampling
markers; the final StageInfo records a cumulative stride of 32 and a
channel count of 512 (for either normalization setting); and a marker
step never changes the channel count and always doubles the accumulated
stride. -/
theorem stage_builder_variants (b : Bool) (st : BuildState) :
    ((buildFeatures cfgs_vgg11 3 b).layers.countP isPoolLayer = 5 ∧
      (buildFeatures cfgs_vgg13 3 b).layers.countP isPoolLayer = 5 ∧
      (buildFeatures cfgs_vgg16 3 b).layers.countP isPoolLayer = 5 ∧
      (buildFeatures cfgs_vgg19 3 b).layers.countP isPoolLayer = 5) ∧
    ((buildFeatures cfgs_vgg11 3 b).feature_info.getLast?.map
        (fun i => (i.num_chs, i.reduction)) = some (512, 32) ∧
      (buildFeatures cfgs_vgg13 3 b).feature_info.getLast?.map
        (fun i => (i.num_chs, i.reduction)) = some (512, 32) ∧
      (buildFeatures cfgs_vgg16 3 b).feature_info.getLast?.map
        (fun i => (i.num_chs, i.reduction)) = some (512, 32) ∧
      (buildFeatures cfgs_vgg19 3 b).feature_info.getLast?.map
        (fun i => (i.num_chs, i.reduction)) = some (512, 32)) ∧
    ((buildStep b st CfgEntry.M).prev_chs = st.prev_chs ∧
      (buildStep b st CfgEntry.M).net_stride = st.net_stride * 2) := by
  refine ⟨⟨?_, ?_, ?_, ?_⟩, ⟨?_, ?_, ?_, ?_⟩, rfl, rfl⟩ <;> cases b <;> decide

/-- Claim C2: the feature stack built from the vgg16 configuration with
normalization configured holds exactly 13 convolutions, 13 normalization
ops, 13 activations and 5 downsampling ops, interleaved as conv-norm-act
per channel-width value and one 2x2 stride-2 max pool per marker. -/
theorem vgg16_norm_feature_stack :
    (buildFeatures cfgs_vgg16 3 true).layers.countP isConvLayer = 13 ∧
    (buildFeatures cfgs_vgg16 3 true).layers.countP isNormLayer = 13 ∧
    (buildFeatures cfgs_vgg16 3 true).layers.countP isActLayer = 13 ∧
    (buildFeatures cfgs_vgg16 3 true).layers.countP isPoolLayer = 5 ∧
    (buildFeatures cfgs_vgg16 3 true).layers =
      [LayerModule.conv2d 3 64 3 1, LayerModule.norm 64, LayerModule.act,
        LayerModule.conv2d 64 64 3 1, LayerModule.norm 64, LayerModule.act,
        LayerModule.maxPool2d 2 2,
        LayerModule.conv2d 64 128 3 1, LayerModule.norm 128, LayerModule.act,
        LayerModule.conv2d 128 128 3 1, LayerModule.norm 128, LayerModule.act,
        LayerModule.maxPool2d 2 2,
        LayerModule.conv2d 128 256 3 1, LayerModule.norm 256, LayerModule.act,
        LayerModule.conv2d 256 256 3 1, LayerModule.norm 256, LayerModule.act,
        LayerModule.conv2d 256 256 3 1, LayerModule.norm 256, LayerModule.act,
        LayerModule.maxPool2d 2 2,
        LayerModule.conv2d 256 512 3 1, LayerModule.norm 512, LayerModule.act,
        LayerModule.conv2d 512 512 3 1, LayerModule.norm 512, LayerModule.act,
        LayerModule.conv2d 512 512 3 1, LayerModule.norm 512, LayerModule.act,
        LayerModule.maxPool2d 2 2,
        LayerModule.conv2d 512 512 3 1, LayerModule.norm 512, LayerModule.act,
        LayerModule.conv2d 512 512 3 1, LayerModule.norm 512, LayerModule.act,
        LayerModule.conv2d 512 512 3 1, LayerModule.norm 512, LayerModule.act,
        LayerModule.maxPool2d 2 2] := by
  decide

/-- Claim C3: the remapper's loop body renames the first legacy weight key
to the head-adapter first conv and reshapes a flat (o, 25088) weight to
(o, 512, 7, 7); renames the second legacy weight key to the head-adapter
second conv and reshapes a flat (q, 4096) weight to (q, 4096, 1, 1); and
renames the third legacy weight key to the classifier linear without
reshaping. -/
theorem remap_legacy_shapes (t u v : Tensor) (o q : Nat)
    (ht : t.shape = [o, 25088]) (hu : u.shape = [q, 4096]) :
    remapEntry legacy0w t =
      some (("pre_logits.fc1.weight").toList, ⟨[o, 512, 7, 7], t.data⟩) ∧
    remapEntry legacy3w u =
      some (("pre_logits.fc2.weight").toList, ⟨[q, 4096, 1, 1], u.data⟩) ∧
    remapEntry (("classifier.6.weight").toList) v =
      some (("head.fc.weight").toList, v) := by
  refine ⟨?_, ?_, ?_⟩
  · cases t with
    | mk sh dt =>
      obtain rfl : sh = [o, 25088] := ht
      exact remapEntry_eval0 _ _ _ _ (by decide) (by decide)
        (reshape_mul o 25088 (by decide) [512, 7, 7] (by decide) dt) (by decide)
  · cases u with
    | mk sh dt =>
      obtain rfl : sh = [q, 4096] := hu
      exact remapEntry_eval3 _ _ _ _ (by decide) (by decide)
        (reshape_mul q 4096 (by decide) [4096, 1, 1] (by decide) dt) (by decide)
  · exact remapEntry_eval6 _ _ v (by decide) (by decide) (by decide)

/-- Witness for C3 at the documented checkpoint shapes. -/
theorem remap_legacy_shapes_w :
    remapEntry legacy0w ⟨[4096, 25088], 1⟩ =
      some (("pre_logits.fc1.weight").toList, ⟨[4096, 512, 7, 7], 1⟩) ∧
    remapEntry legacy3w ⟨[4096, 4096], 2⟩ =
      some (("pre_logits.fc2.weight").toList, ⟨[4096, 4096, 1, 1], 2⟩) ∧
    remapEntry (("classifier.6.weight").toList) ⟨[1000, 4096], 3⟩ =
      some (("head.fc.weight").toList, ⟨[1000, 4096], 3⟩) :=
  remap_legacy_shapes ⟨[4096, 25088], 1⟩ ⟨[4096, 4096], 2⟩ ⟨[1000, 4096], 3⟩ 4096 4096 rfl rfl

/-- Counterexample for C4 as stated: the key x.classifier.0 does not begin
with any of the three legacy names, yet the remapper renames it, because
the renaming is substring replacement rather than leading-prefix match. -/
theorem remap_leading_match_cx :
    isPre legacy0 (("x.classifier.0").toList) = false ∧
    isPre legacy3 (("x.classifier.0").toList) = false ∧
    isPre legacy6 (("x.classifier.0").toList) = false ∧
    filter_fn [(("x.classifier.0").toList, ⟨[2, 2], 0⟩)] =
      some [(("x.pre_logits.fc1").toList, ⟨[2, 2], 0⟩)] ∧
    ("x.pre_logits.fc1").toList ≠ ("x.classifier.0").toList := by
  decide

/-- Claim C4 (amended): the remapper renames by substring containment of
the three legacy names; an entry whose key contains none of them passes
through the loop body bound to the identical value, and a map with
distinct keys none of which contains a legacy name is returned with all
entries untouched and no error. -/
theorem remap_pass_through :
    (∀ (k : List Char) (v : Tensor), noLegacy k → remapEntry k v = some (k, v)) ∧
    (∀ m : List (List Char × Tensor), (keys m).Nodup → (∀ kv ∈ m, noLegacy kv.1) →
      filter_fn m = some m) :=
  ⟨fun k v h => remapEntry_clean k v h, fun m hnd hcl => filterFn_clean m hnd hcl⟩

/-- Witness for C4 on a legacy-free map. -/
theorem remap_pass_through_w :
    filter_fn [(("features.0.weight").toList, ⟨[64, 3, 3, 3], 0⟩)] =
      some [(("features.0.weight").toList, ⟨[64, 3, 3, 3], 0⟩)] :=
  remap_pass_through.2 [(("features.0.weight").toList, ⟨[64, 3, 3, 3], 0⟩)]
    (by decide) (by decide)

/-- Counterexample for C5 as stated: remapping the key
classifier.6lassifier.0.weight splices a fresh classifier.0 occurrence
into the output key, so a second remap renames and reshapes again and the
remapper is not idempotent on every input map. -/
theorem remap_idempotent_cx :
    filter_fn [(("classifier.6lassifier.0.weight").toList, ⟨[25088], 7⟩)] =
      some [(("head.fclassifier.0.weight").toList, ⟨[25088], 7⟩)] ∧
    filter_fn [(("head.fclassifier.0.weight").toList, ⟨[25088], 7⟩)] =
      some [(("head.fpre_logits.fc1.weight").toList, ⟨[1, 512, 7, 7], 7⟩)] ∧
    [(("head.fpre_logits.fc1.weight").toList, (⟨[1, 512, 7, 7], 7⟩ : Tensor))] ≠
      [(("head.fclassifier.0.weight").toList, (⟨[25088], 7⟩ : Tensor))] := by
  decide

/-- Claim C5 (amended): the remapper fixes every output of itself whose
keys contain none of the legacy names (as holds for standard checkpoint
layouts); on such an output a second application renames and reshapes
nothing. -/
theorem remap_idempotent_clean (m m' : List (List Char × Tensor))
    (h : filter_fn m = some m') (hcl : ∀ kv ∈ m', noLegacy kv.1) :
    filter_fn m' = some m' :=
  filterFn_clean m' (filterFn_nodup m m' h) hcl

/-- Claim C6: a spatial input with a dimension smaller than the kernel
size does not error through the head adapter's forward pass: it is first
adaptively average-pooled up to max(kernel_size, dim) per dimension, so
the kernel-size convolution is defined and the output spatial dimensions
are at least 1x1. -/
theorem conv_mlp_small_input (n c h w k out_f : Nat) (r dr : ℚ)
    (hh : 0 < h) (hw : 0 < w) (hsmall : h < k ∨ w < k)
    (hmid : 0 ≤ (ConvMlp.init c out_f k r dr).mid_features) :
    ∃ o, (ConvMlp.init c out_f k r dr).forwardShape ⟨n, c, h, w⟩ = some o ∧
      1 ≤ o.h ∧ 1 ≤ o.w := by
  have hle1 : k ≤ max k h := Nat.le_max_left k h
  have hle2 : k ≤ max k w := Nat.le_max_left k w
  refine ⟨⟨n, ((out_f : Int)).toNat, max k h - k + 1, max k w - k + 1⟩, ?_,
    Nat.succ_le_succ (Nat.zero_le _), Nat.succ_le_succ (Nat.zero_le _)⟩
  show ((if h < k ∨ w < k then
      adaptive_avg_pool2d ⟨n, c, h, w⟩ (max k h) (max k w)
    else some ⟨n, c, h, w⟩).bind
      (conv2dShape (ConvMlp.init c out_f k r dr).fc1 0)).bind
      (conv2dShape (ConvMlp.init c out_f k r dr).fc2 0) =
    some ⟨n, ((out_f : Int)).toNat, max k h - k + 1, max k w - k + 1⟩
  rw [if_pos hsmall]
  rw [show adaptive_avg_pool2d ⟨n, c, h, w⟩ (max k h) (max k w) =
      some ⟨n, c, max k h, max k w⟩ from by simp [adaptive_avg_pool2d, hh, hw]]
  show (conv2dShape (ConvMlp.init c out_f k r dr).fc1 0 ⟨n, c, max k h, max k w⟩).bind
      (conv2dShape (ConvMlp.init c out_f k r dr).fc2 0) =
    some ⟨n, ((out_f : Int)).toNat, max k h - k + 1, max k w - k + 1⟩
  have hcond1 : (ConvMlp.init c out_f k r dr).fc1.in_channels =
      ((⟨n, c, max k h, max k w⟩ : Shape4).c : Int) ∧
      (ConvMlp.init c out_f k r dr).fc1.kernel_size ≤
        (⟨n, c, max k h, max k w⟩ : Shape4).h + 2 * 0 ∧
      (ConvMlp.init c out_f k r dr).fc1.kernel_size ≤
        (⟨n, c, max k h, max k w⟩ : Shape4).w + 2 * 0 := ⟨rfl, hle1, hle2⟩
  rw [show conv2dShape (ConvMlp.init c out_f k r dr).fc1 0 ⟨n, c, max k h, max k w⟩ =
      some ⟨n, (ConvMlp.init c out_f k r dr).mid_features.toNat,
        max k h - k + 1, max k w - k + 1⟩ from by
    rw [conv2dShape, if_pos hcond1]
    rfl]
  show conv2dShape (ConvMlp.init c out_f k r dr).fc2 0
      ⟨n, (ConvMlp.init c out_f k r dr).mid_features.toNat, max k h - k + 1, max k w - k + 1⟩ =
    some ⟨n, ((out_f : Int)).toNat, max k h - k + 1, max k w - k + 1⟩
  have hcond2 : (ConvMlp.init c out_f k r dr).fc2.in_channels =
      (((⟨n, (ConvMlp.init c out_f k r dr).mid_features.toNat, max k h - k + 1,
        max k w - k + 1⟩ : Shape4)).c : Int) ∧
      (ConvMlp.init c out_f k r dr).fc2.kernel_size ≤
        (⟨n, (ConvMlp.init c out_f k r dr).mid_features.toNat, max k h - k + 1,
          max k w - k + 1⟩ : Shape4).h + 2 * 0 ∧
      (ConvMlp.init c out_f k r dr).fc2.kernel_size ≤
        (⟨n, (ConvMlp.init c out_f k r dr).mid_features.toNat, max k h - k + 1,
          max k w - k + 1⟩ : Shape4).w + 2 * 0 := by
    refine ⟨(Int.toNat_of_nonneg hmid).symm, ?_, ?_⟩ <;>
      exact Nat.succ_le_succ (Nat.zero_le _)
  rw [conv2dShape, if_pos hcond2]
  rfl

/-- Witness for C6 on a 5x5 input into the default 7x7-kernel adapter. -/
theorem conv_mlp_small_input_w :
    ∃ o, (ConvMlp.init 512 4096 7 1 0).forwardShape ⟨1, 512, 5, 5⟩ = some o ∧
      1 ≤ o.h ∧ 1 ≤ o.w :=
  conv_mlp_small_input 1 512 5 5 7 4096 1 0 (by decide) (by decide)
    (Or.inl (by decide)) (by norm_num [ConvMlp.init, pyInt])

/-- Counterexample for C7 as stated: with out_features 3 and mlp_ratio
1/2 the code's hidden width int(3 * 0.5) truncates to 1, while rounding
the product to the nearest integer gives 2. -/
theorem conv_mlp_hidden_width_cx :
    (ConvMlp.init 512 3 7 (1 / 2) 0).mid_features = 1 ∧
    round ((3 : ℚ) * (1 / 2)) = 2 ∧
    (ConvMlp.init 512 3 7 (1 / 2) 0).mid_features ≠ round ((3 : ℚ) * (1 / 2)) := by
  have h1 : (ConvMlp.init 512 3 7 (1 / 2) 0).mid_features = 1 := by
    show pyInt (((3 : Nat) : ℚ) * (1 / 2)) = 1
    rw [pyInt, if_pos (by norm_num)]
    norm_num
  have h2 : round ((3 : ℚ) * (1 / 2)) = 2 := by
    rw [round_eq]
    norm_num
  exact ⟨h1, h2, by rw [h1, h2]; decide⟩

/-- Claim C7 (amended): the hidden width of the head adapter equals
out_features * mlp_ratio truncated toward zero (the floor, for a
nonnegative ratio) rather than rounded to nearest; the first convolution
maps in_features to this width and the 1x1 second convolution maps it to
out_features, both with bias. -/
theorem conv_mlp_hidden_width (in_f out_f k : Nat) (r dr : ℚ) (hr : 0 ≤ r) :
    (ConvMlp.init in_f out_f k r dr).mid_features = ⌊(out_f : ℚ) * r⌋ ∧
    (ConvMlp.init in_f out_f k r dr).fc1 = ⟨(in_f : Int), ⌊(out_f : ℚ) * r⌋, k, true⟩ ∧
    (ConvMlp.init in_f out_f k r dr).fc2 = ⟨⌊(out_f : ℚ) * r⌋, (out_f : Int), 1, true⟩ := by
  have h0 : 0 ≤ (out_f : ℚ) * r := mul_nonneg (Nat.cast_nonneg out_f) hr
  refine ⟨?_, ?_, ?_⟩ <;> simp [ConvMlp.init, pyInt, h0]

/-- Witness for C7 at the module defaults. -/
theorem conv_mlp_hidden_width_w :
    (ConvMlp.init 512 4096 7 1 0).mid_features = ⌊((4096 : Nat) : ℚ) * 1⌋ ∧
    (ConvMlp.init 512 4096 7 1 0).fc1 = ⟨((512 : Nat) : Int), ⌊((4096 : Nat) : ℚ) * 1⌋, 7, true⟩ ∧
    (ConvMlp.init 512 4096 7 1 0).fc2 = ⟨⌊((4096 : Nat) : ℚ) * 1⌋, ((4096 : Nat) : Int), 1, true⟩ :=
  conv_mlp_hidden_width 512 4096 7 1 0 (by norm_num)

/-- Claim C8: VGG construction is guarded by the output_stride assertion:
any value other than 32 yields a failure before any module is built, and
32 lets construction proceed to a full model. -/
theorem vgg_output_stride_guard :
    (∀ (cfg : List CfgEntry) (nc : Int) (ic os : Nat) (r : ℚ) (b : Bool) (gp : String) (dr : ℚ),
      os ≠ 32 → VGG.init cfg nc ic os r b gp dr = none) ∧
    (∀ (cfg : List CfgEntry) (nc : Int) (ic : Nat) (r : ℚ) (b : Bool) (gp : String) (dr : ℚ),
      (VGG.init cfg nc ic 32 r b gp dr).isSome = true) := by
  constructor
  · intro cfg nc ic os r b gp dr hos
    simp [VGG.init, hos]
  · intro cfg nc ic r b gp dr
    simp [VGG.init]

/-- Witness for C8 at output_stride 16 and 32. -/
theorem vgg_output_stride_guard_w :
    VGG.init cfgs_vgg11 1000 3 16 1 false ("avg") 0 = none ∧
    (VGG.init cfgs_vgg11 1000 3 32 1 false ("avg") 0).isSome = true :=
  ⟨vgg_output_stride_guard.1 cfgs_vgg11 1000 3 16 1 false ("avg") 0 (by decide),
    vgg_output_stride_guard.2 cfgs_vgg11 1000 3 1 false ("avg") 0⟩

/-- Claim C9: reset_classifier only touches the stored num_classes and the
classifier head: the feature stack, the head adapter, the feature_info
records and the rest of the model are unchanged, the stored num_classes
becomes the new value, and a nonpositive value selects the identity
projection (feature-only mode) rather than erroring. -/
theorem reset_classifier_frame (m : VGG) (n : Int) (gp : Option String) :
    (m.reset_classifier n gp).num_classes = n ∧
    (m.reset_classifier n gp).features = m.features ∧
    (m.reset_classifier n gp).pre_logits = m.pre_logits ∧
    (m.reset_classifier n gp).feature_info = m.feature_info ∧
    (m.reset_classifier n gp).num_features = m.num_features ∧
    (m.reset_classifier n gp).use_norm = m.use_norm ∧
    (n ≤ 0 → (m.reset_classifier n gp).head.fc = HeadFc.identity) := by
  refine ⟨rfl, rfl, rfl, rfl, rfl, rfl, fun hn => ?_⟩
  simp [VGG.reset_classifier, ClassifierHead.reset, hn]

/-- Witness for C9 at num_classes 0 on a concrete model. -/
theorem reset_classifier_frame_w :
    (sampleVGG.reset_classifier 0 none).num_classes = 0 ∧
    (sampleVGG.reset_classifier 0 none).features = sampleVGG.features ∧
    (sampleVGG.reset_classifier 0 none).pre_logits = sampleVGG.pre_logits ∧
    (sampleVGG.reset_classifier 0 none).feature_info = sampleVGG.feature_info ∧
    (sampleVGG.reset_classifier 0 none).num_features = sampleVGG.num_features ∧
    (sampleVGG.reset_classifier 0 none).use_norm = sampleVGG.use_norm ∧
    (sampleVGG.reset_classifier 0 none).head.fc = HeadFc.identity := by
  have h := reset_classifier_frame sampleVGG 0 none
  exact ⟨h.1, h.2.1, h.2.2.1, h.2.2.2.1, h.2.2.2.2.1, h.2.2.2.2.2.1,
    h.2.2.2.2.2.2 (by decide)⟩

/-- Claim C10: a configuration starting with the downsampling marker still
constructs without any runtime validation error, and the first recorded
StageInfo then carries channel count in_chans, stride 1 and the module
name features.-1, the index of the last emitted layer being computed
before any layer exists. -/
theorem marker_first_feature_info (rest : List CfgEntry) (nc : Int) (ic : Nat) (r : ℚ)
    (b : Bool) (gp : String) (dr : ℚ) :
    ∃ m, VGG.init (CfgEntry.M :: rest) nc ic 32 r b gp dr = some m ∧
      m.feature_info.head? = some ⟨ic, 1, "features.-1"⟩ := by
  refine ⟨_, rfl, ?_⟩
  obtain ⟨s, hs⟩ := feature_info_extend b rest (buildStep b ⟨ic, 1, [], []⟩ CfgEntry.M)
  have hst : (buildStep b ⟨ic, 1, [], []⟩ CfgEntry.M).feature_info =
      [⟨ic, 1, "features.-1"⟩] := by
    have hname : featureName (-1) = "features.-1" := by decide
    simp [buildStep, hname]
  have hbf : (buildFeatures (CfgEntry.M :: rest) ic b).feature_info =
      (List.foldl (buildStep b) ⟨ic, 1, [], []⟩ (CfgEntry.M :: rest)).feature_info ++
        [⟨(List.foldl (buildStep b) ⟨ic, 1, [], []⟩ (CfgEntry.M :: rest)).prev_chs,
          (List.foldl (buildStep b) ⟨ic, 1, [], []⟩ (CfgEntry.M :: rest)).net_stride,
          featureName
            (((List.foldl (buildStep b) ⟨ic, 1, [], []⟩ (CfgEntry.M :: rest)).layers.length :
              Int) - 1)⟩] := rfl
  show (buildFeatures (CfgEntry.M :: rest) ic b).feature_info.head? =
    some ⟨ic, 1, "features.-1"⟩
  rw [hbf, List.foldl_cons, hs, hst]
  simp

/-- Witness for C5 on a standard legacy checkpoint entry. -/
theorem remap_idempotent_clean_w :
    filter_fn [(("pre_logits.fc1.weight").toList, ⟨[4096, 512, 7, 7], 1⟩)] =
      some [(("pre_logits.fc1.weight").toList, ⟨[4096, 512, 7, 7], 1⟩)] :=
  remap_idempotent_clean [(("classifier.0.weight").toList, ⟨[4096, 25088], 1⟩)]
    [(("pre_logits.fc1.weight").toList, ⟨[4096, 512, 7, 7], 1⟩)] (by decide) (by decide)

end VggModel
